import Mathlib

/-!
Shallow embedding of `src/generate.mjs` from the critical-css-generator
repository (a Craft CMS critical-CSS orchestration pipeline), together with
theorems about its behaviour.

Modelling conventions:
* JavaScript strings are modelled as `List Char` (`Str`).
* The three regular expressions used by the code are modelled by explicit
  scanners that follow the JS regex engine's leftmost-match / backtracking
  semantics for these particular patterns (each pattern's `[^>]*` pieces can
  never cross a `>`, so the match at a given start position is unique).
* External effects (HTTP fetch, filesystem reads of the Vite manifest and the
  assets directory, the Beasties extraction engine) are oracle functions
  collected in a `World` structure; the manifest field models the combined
  result of `readFile` + `JSON.parse` (`none` = either step threw).
* Filesystem writes and fetches performed by a run are recorded in an event
  trace, so that "no page is fetched" and "byte-identical output files" are
  expressible.
* `(bytes / 1024).toFixed(2)` is modelled by exact rational rounding
  (round half up); IEEE floating point artefacts are abstracted away.  No
  theorem below depends on the numeric value of the reported size string.
* Scanners that jump forward by a whole match recurse on structurally smaller
  fuel (initialised to the string length, which bounds the number of steps);
  this keeps every definition kernel-computable.
-/

namespace CriticalCss

abbrev Str := List Char

/-! ### Case-insensitive character matching (the `i` regex flag) -/

def charLower (c : Char) : Char :=
  if 'A' ≤ c ∧ c ≤ 'Z' then Char.ofNat (c.toNat + 32) else c

def ciEq (a b : Char) : Bool := charLower a == charLower b

/-- Strip `pat` (case-insensitively) from the front of `s`, returning the
remainder on success. -/
def ciStrip? : Str → Str → Option Str
  | [], s => some s
  | _ :: _, [] => none
  | p :: ps, c :: cs => if ciEq p c then ciStrip? ps cs else none

/-- Earliest case-insensitive occurrence of `pat` in `s`:
`findCI pat s = some (before, after)` splits `s` around the first occurrence.
This models a lazy `[\s\S]*?` followed by the literal `pat`. -/
def findCI (pat : Str) : Str → Option (Str × Str)
  | [] =>
    match ciStrip? pat [] with
    | some r => some ([], r)
    | none => none
  | c :: cs =>
    match ciStrip? pat (c :: cs) with
    | some r => some ([], r)
    | none =>
      match findCI pat cs with
      | some (b, r) => some (c :: b, r)
      | none => none

def ciContains (pat s : Str) : Bool := (findCI pat s).isSome

/-- Split at the first `>`: models greedy `[^>]*` followed by `>` (the class
cannot cross a `>`, so the split is unique). -/
def splitFirstGt : Str → Option (Str × Str)
  | [] => none
  | c :: cs =>
    if c = '>' then some ([], cs)
    else
      match splitFirstGt cs with
      | some (a, b) => some (c :: a, b)
      | none => none

/-- Case-sensitive substring test: JS `String.prototype.includes`. -/
def containsSub (pat : Str) : Str → Bool
  | [] => pat.isPrefixOf []
  | c :: cs => pat.isPrefixOf (c :: cs) || containsSub pat cs

/-! ### The `<style ...>...</style>` regex -/

/-- One regex match of `/<style[^>]*>([\s\S]*?)<\/style>/gi`:
`full` is `match[0]`, `body` is the capture group `match[1]`, `rest` is the
input after the match (where a global scan resumes). -/
structure StyleMatch where
  full : Str
  body : Str
  rest : Str
deriving DecidableEq, Repr

def styleOpen : Str := "<style".toList

def styleCloseTag : Str := "</style>".toList

/-- Attempt to match `/<style[^>]*>([\s\S]*?)<\/style>/i` anchored at the
start of `s`. -/
def matchStyleAt (s : Str) : Option StyleMatch :=
  match ciStrip? styleOpen s with
  | none => none
  | some afterTag =>
    match splitFirstGt afterTag with
    | none => none
    | some (attrs, afterGt) =>
      match findCI styleCloseTag afterGt with
      | none => none
      | some (body, rest) =>
        some ⟨s.take (styleOpen.length + attrs.length + 1 + body.length + styleCloseTag.length),
              body, rest⟩

/-- `'<!-- existing-style-placeholder -->'` — the replacement the sanitizer
substitutes for each pre-existing style block (generate.mjs line 96). -/
def placeholderComment : Str := "<!-- existing-style-placeholder -->".toList

/-- The bare marker substring checked by `match[0].includes(...)`
(generate.mjs line 116). -/
def placeholderText : Str := "existing-style-placeholder".toList

/-- Global replace of every `<style ...>...</style>` block with
`placeholderComment` (generate.mjs lines 95-97), with step fuel. -/
def replaceStylesF : Nat → Str → Str
  | 0, s => s
  | _ + 1, [] => []
  | fuel + 1, c :: cs =>
    match matchStyleAt (c :: cs) with
    | some m => placeholderComment ++ replaceStylesF fuel m.rest
    | none => c :: replaceStylesF fuel cs

def replaceStyles (s : Str) : Str := replaceStylesF s.length s

/-! ### The `<link ... rel=["']stylesheet["'] ...>` regex -/

def isQuoteCh (c : Char) : Bool := c = Char.ofNat 34 || c = Char.ofNat 39

/-- Match `rel=["']stylesheet["']` (case-insensitive letters, either quote
character on either side) anchored at the start of `s`. -/
def relStylesheetAt (s : Str) : Bool :=
  match ciStrip? ("rel=".toList) s with
  | none => false
  | some rest1 =>
    match rest1 with
    | [] => false
    | q1 :: rest2 =>
      isQuoteCh q1 &&
        (match ciStrip? ("stylesheet".toList) rest2 with
         | none => false
         | some [] => false
         | some (q2 :: _) => isQuoteCh q2)

def hasRelStylesheet : Str → Bool
  | [] => false
  | c :: cs => relStylesheetAt (c :: cs) || hasRelStylesheet cs

def linkOpen : Str := "<link".toList

/-- Attempt to match `/<link[^>]*rel=["']stylesheet["'][^>]*>/i` anchored at
the start of `s`; on success returns the input after the match.  The
`rel=...` pattern contains no `>`, so the regex matches exactly when the run
of non-`>` characters after `<link` contains it, and the match always ends at
the first `>`. -/
def matchLinkAt (s : Str) : Option Str :=
  match ciStrip? linkOpen s with
  | none => none
  | some afterTag =>
    match splitFirstGt afterTag with
    | none => none
    | some (attrs, afterGt) =>
      if hasRelStylesheet attrs then some afterGt else none

/-- Global deletion of stylesheet `<link>` tags (generate.mjs line 100). -/
def removeLinksF : Nat → Str → Str
  | 0, s => s
  | _ + 1, [] => []
  | fuel + 1, c :: cs =>
    match matchLinkAt (c :: cs) with
    | some rest => removeLinksF fuel rest
    | none => c :: removeLinksF fuel cs

def removeLinks (s : Str) : Str := removeLinksF s.length s

/-! ### `String.prototype.replace` with a plain-string pattern -/

/-- JS `s.replace(pat, repl)` for a *string* pattern: replaces only the first
occurrence; returns `s` unchanged when there is none.  (`$`-substitution in
the replacement is not modelled; the pipeline's replacement strings are used
literally.) -/
def replaceFirstStr (pat repl : Str) : Str → Str
  | [] => if pat.isPrefixOf [] then repl ++ ([] : Str).drop pat.length else []
  | c :: cs =>
    if pat.isPrefixOf (c :: cs) then repl ++ (c :: cs).drop pat.length
    else c :: replaceFirstStr pat repl cs

def headClose : Str := "</head>".toList

/-- `<link rel="stylesheet" href="{href}">` (generate.mjs line 103). -/
def linkTag (href : Str) : Str :=
  "<link rel=\"stylesheet\" href=\"".toList ++ href ++ "\">".toList

/-- The HTML sanitizer (generate.mjs lines 94-103): replace style blocks with
the placeholder comment, delete stylesheet links, then insert the new link
tag before (the first) `</head>`. -/
def sanitizeHtml (href html : Str) : Str :=
  replaceFirstStr headClose (linkTag href ++ "\n".toList ++ headClose)
    (removeLinks (replaceStyles html))

/-! ### Output extraction (generate.mjs lines 107-120) -/

/-- All matches of `/<style[^>]*>([\s\S]*?)<\/style>/gi` (`matchAll`),
resuming after each match. -/
def matchAllStylesF : Nat → Str → List StyleMatch
  | 0, _ => []
  | _ + 1, [] => []
  | fuel + 1, c :: cs =>
    match matchStyleAt (c :: cs) with
    | some m => m :: matchAllStylesF fuel m.rest
    | none => matchAllStylesF fuel cs

def matchAllStyles (s : Str) : List StyleMatch := matchAllStylesF s.length s

/-- Attempt to match `/<style[^>]*data-href[^>]*>([\s\S]*?)<\/style>/i`
anchored at the start of `s`, returning the capture group. -/
def matchDataHrefStyleAt (s : Str) : Option Str :=
  match ciStrip? styleOpen s with
  | none => none
  | some afterTag =>
    match splitFirstGt afterTag with
    | none => none
    | some (attrs, afterGt) =>
      if ciContains ("data-href".toList) attrs then
        match findCI styleCloseTag afterGt with
        | some (body, _) => some body
        | none => none
      else none

/-- First match of the `data-href` style regex (generate.mjs line 109). -/
def findDataHrefStyle : Str → Option Str
  | [] => none
  | c :: cs =>
    match matchDataHrefStyleAt (c :: cs) with
    | some body => some body
    | none => findDataHrefStyle cs

/-- Recover the critical CSS from the Beasties output (generate.mjs
lines 107-120): the capture of the first `data-href` style block if any,
otherwise the concatenated captures of every style block whose full match
does not contain the placeholder substring. -/
def extractCriticalCss (processedHtml : Str) : Str :=
  match findDataHrefStyle processedHtml with
  | some body => body
  | none =>
    (((matchAllStyles processedHtml).filter fun m => !containsSub placeholderText m.full).map
      StyleMatch.body).flatten

/-! ### JS string trim -/

def isJsWhitespace (c : Char) : Bool :=
  c = ' ' || c = Char.ofNat 9 || c = Char.ofNat 10 || c = Char.ofNat 11 ||
  c = Char.ofNat 12 || c = Char.ofNat 13 || c = Char.ofNat 160 ||
  c = Char.ofNat 0x2028 || c = Char.ofNat 0x2029 || c = Char.ofNat 0xfeff

def trimStr (s : Str) : Str :=
  ((s.dropWhile isJsWhitespace).reverse.dropWhile isJsWhitespace).reverse

/-! ### Data model -/

structure Page where
  uri : Str
  template : Str
deriving DecidableEq, Repr

/-- The fully resolved configuration handed to `generateCriticalCss` (its
`beasties` options bag is absorbed into the engine oracle below, since the
engine is an external capability configured once per run). -/
structure Config where
  projectRoot : Str
  baseUrl : Str
  outputDir : Str
  manifestPath : Str
  appEntry : Str
  publicDir : Str
  publicPath : Str
  pages : List Page

structure CssInfo where
  absolutePath : Str
  href : Str
deriving DecidableEq, Repr

structure PageResult where
  page : Page
  success : Bool
  size : Option Str
  error : Option Str
deriving DecidableEq, Repr

structure RunSummary where
  results : List PageResult
  successful : Nat
  failed : Nat
deriving DecidableEq, Repr

/-- Result of the global `fetch`: either an HTTP response (any status) or a
network-level failure whose error propagates as-is. -/
inductive FetchOutcome where
  | response (status : Nat) (statusText : Str) (body : Str)
  | networkError (message : Str)

/-- Oracles for the run's external collaborators.  `manifest` models
`JSON.parse(await readFile(manifestPath))` (`none` = missing file or
malformed JSON; the function is the parsed object's key lookup, returning the
entry's `css` array, `none` when the key is absent and `[]` when the entry
has no usable css list).  `assetsDir` models `readdir(web/dist/assets)`
(`none` = the directory does not exist). -/
structure World where
  fetch : Str → FetchOutcome
  beastiesProcess : Str → Str
  manifest : Option (Str → Option (List Str))
  assetsDir : Option (List Str)

/-- Observable side effects of a run. -/
inductive Event where
  | fetched (url : Str)
  | wroteFile (path : Str) (contents : Str)
deriving DecidableEq, Repr

/-! ### Asset locator (generate.mjs lines 13-48) -/

def joinPath (a b : Str) : Str := a ++ '/' :: b

/-- The first css file of the configured manifest entry, when the manifest
was readable, parseable, and the entry has a non-empty `css` list — the
condition of the `return` inside the `try` block (generate.mjs lines 18-26). -/
def manifestCss? (cfg : Config) (w : World) : Option Str :=
  match w.manifest with
  | none => none
  | some lookup =>
    match lookup cfg.appEntry with
    | none => none
    | some [] => none
    | some (cssFile :: _) => some cssFile

/-- First `.css` file of the fallback `web/dist/assets` listing
(generate.mjs lines 32-45). -/
def fallbackCss? (w : World) : Option Str :=
  match w.assetsDir with
  | none => none
  | some files =>
    match files.filter (fun f => List.isSuffixOf (".css".toList) f) with
    | [] => none
    | f :: _ => some f

def noCssError : Str := "No CSS files found in web/dist/. Run your Vite build first.".toList

def getBuiltCssInfo (cfg : Config) (w : World) : Except Str CssInfo :=
  match manifestCss? cfg w with
  | some cssFile =>
    .ok ⟨joinPath cfg.projectRoot (joinPath ("web/dist".toList) cssFile),
         "/dist/".toList ++ cssFile⟩
  | none =>
    match fallbackCss? w with
    | some f =>
      .ok ⟨joinPath cfg.projectRoot (joinPath ("web/dist".toList) ("assets/".toList ++ f)),
           "/dist/".toList ++ ("assets/".toList ++ f)⟩
    | none => .error noCssError

/-! ### HTML fetcher (generate.mjs lines 5-11) -/

/-- `Failed to fetch ${url}: ${response.status} ${response.statusText}`. -/
def fetchFailMsg (url : Str) (status : Nat) (statusText : Str) : Str :=
  "Failed to fetch ".toList ++ url ++ ": ".toList ++ (Nat.repr status).toList ++
    " ".toList ++ statusText

/-- `fetchHtml`: `response.ok` is true exactly for 2xx statuses. -/
def fetchHtml (w : World) (url : Str) : Except Str Str :=
  match w.fetch url with
  | .networkError msg => .error msg
  | .response status statusText body =>
    if 200 ≤ status ∧ status ≤ 299 then .ok body
    else .error (fetchFailMsg url status statusText)

/-! ### Per-page pipeline (generate.mjs lines 84-142) -/

def pageUrl (cfg : Config) (p : Page) : Str := cfg.baseUrl ++ p.uri

def outputFilename (p : Page) : Str := p.template ++ "_critical.min.css".toList

def outputPath (cfg : Config) (p : Page) : Str := joinPath cfg.outputDir (outputFilename p)

def utf8Len (s : Str) : Nat := s.foldl (fun n c => n + c.utf8Size) 0

/-- `(Buffer.byteLength(css, 'utf-8') / 1024).toFixed(2)`, modelled by exact
round-half-up to hundredths of a KB. -/
def sizeKbStr (css : Str) : Str :=
  let hundredths := (utf8Len css * 200 + 1024) / 2048
  (Nat.repr (hundredths / 100)).toList ++ ".".toList ++
    (if hundredths % 100 < 10 then "0".toList else []) ++ (Nat.repr (hundredths % 100)).toList

/-- The body of the `for (const page of pages)` loop: fetch, sanitize, run the
engine, extract, then either record a soft failure (empty extraction) or
write the trimmed CSS and record success.  Any fetch error is caught at this
boundary and recorded (generate.mjs lines 138-141). -/
def processPage (cfg : Config) (w : World) (cssInfo : CssInfo) (p : Page) :
    PageResult × List Event :=
  match fetchHtml w (pageUrl cfg p) with
  | .error msg => (⟨p, false, none, some msg⟩, [Event.fetched (pageUrl cfg p)])
  | .ok html =>
    if trimStr (extractCriticalCss (w.beastiesProcess (sanitizeHtml cssInfo.href html))) = [] then
      (⟨p, false, none, some ("No critical CSS extracted".toList)⟩,
       [Event.fetched (pageUrl cfg p)])
    else
      (⟨p, true,
        some (sizeKbStr (trimStr (extractCriticalCss
          (w.beastiesProcess (sanitizeHtml cssInfo.href html))))), none⟩,
       [Event.fetched (pageUrl cfg p),
        Event.wroteFile (outputPath cfg p)
          (trimStr (extractCriticalCss (w.beastiesProcess (sanitizeHtml cssInfo.href html))))])

/-- The `results` array accumulated by the page loop. -/
def runResults (cfg : Config) (w : World) (cssInfo : CssInfo) : List PageResult :=
  cfg.pages.map fun p => (processPage cfg w cssInfo p).1

/-- The side effects of the page loop, in order. -/
def runEvents (cfg : Config) (w : World) (cssInfo : CssInfo) : List Event :=
  (cfg.pages.map fun p => (processPage cfg w cssInfo p).2).flatten

/-- `{ results, successful: successful.length, failed: failed.length }`
(generate.mjs lines 144-155). -/
def runSummaryOf (cfg : Config) (w : World) (cssInfo : CssInfo) : RunSummary :=
  ⟨runResults cfg w cssInfo,
   ((runResults cfg w cssInfo).filter fun r => r.success).length,
   ((runResults cfg w cssInfo).filter fun r => !r.success).length⟩

/-- The run (generate.mjs lines 65-156).  The `mkdir` of the output directory
is modelled as always succeeding; a failing `getBuiltCssInfo` propagates as a
raised error before any page is processed (the event trace is then empty). -/
def generateCriticalCss (cfg : Config) (w : World) :
    Except Str RunSummary × List Event :=
  match getBuiltCssInfo cfg w with
  | .error e => (.error e, [])
  | .ok cssInfo => (.ok (runSummaryOf cfg w cssInfo), runEvents cfg w cssInfo)

/-! ### Reference definition of the asset locator, written from the
specification's description (for the refinement comparison): manifest entry
with a non-empty css list gives `projectRoot/web/dist/<cssFile>` and
`/dist/<cssFile>`; on any failure, the first `.css` file of the
`web/dist/assets` listing gives the analogous `projectRoot/web/dist/assets/<f>`
and `/dist/assets/<f>`; total failure is the "no CSS found" error. -/

def assetLocatorRefFallback (cfg : Config) (w : World) : Except Str CssInfo :=
  match w.assetsDir with
  | some files =>
    match files.filter (fun f => List.isSuffixOf (".css".toList) f) with
    | f :: _ =>
      .ok ⟨joinPath cfg.projectRoot (joinPath ("web/dist/assets".toList) f),
           "/dist/assets/".toList ++ f⟩
    | [] => .error noCssError
  | none => .error noCssError

def assetLocatorRef (cfg : Config) (w : World) : Except Str CssInfo :=
  match w.manifest with
  | some lookup =>
    match lookup cfg.appEntry with
    | some (cssFile :: _) =>
      .ok ⟨joinPath cfg.projectRoot (joinPath ("web/dist".toList) cssFile),
           "/dist/".toList ++ cssFile⟩
    | _ => assetLocatorRefFallback cfg w
  | none => assetLocatorRefFallback cfg w

/-! ### Concrete sample data (used by the closed instance theorems) -/

def samplePage1 : Page := ⟨"/".toList, "index".toList⟩

def samplePage2 : Page := ⟨"/about".toList, "about".toList⟩

def sampleConfig : Config :=
  { projectRoot := "/proj".toList
    baseUrl := "http://site".toList
    outputDir := "/proj/web/dist/criticalcss".toList
    manifestPath := "web/dist/.vite/manifest.json".toList
    appEntry := "src/js/app.ts".toList
    publicDir := "web".toList
    publicPath := "/".toList
    pages := [samplePage1, samplePage2] }

/-- A world whose first page succeeds and whose second page returns a 404;
the Beasties oracle inlines one marked style block before `</head>`. -/
def sampleWorld : World :=
  { fetch := fun url =>
      if url = "http://site/".toList then
        .response 200 ("OK".toList)
          ("<html><head><style>old\x7bz\x7d</style></head><body></body></html>".toList)
      else .response 404 ("Not Found".toList) []
    beastiesProcess := fun html =>
      replaceFirstStr ("</head>".toList)
        ("<style data-href=\"/dist/app.css\">h1\x7bcolor:blue\x7d</style></head>".toList) html
    manifest := some fun k => if k = "src/js/app.ts".toList then some ["app.css".toList] else none
    assetsDir := none }

/-- The summary `generateCriticalCss sampleConfig sampleWorld` produces. -/
def sampleSummary : RunSummary :=
  ⟨[⟨samplePage1, true, some ("0.01".toList), none⟩,
    ⟨samplePage2, false, none,
     some ("Failed to fetch http://site/about: 404 Not Found".toList)⟩], 1, 1⟩

/-- A world with no readable manifest and no fallback assets directory. -/
def sampleWorldNoCss : World :=
  { fetch := fun _ => .networkError []
    beastiesProcess := fun h => h
    manifest := none
    assetsDir := none }

/-- A world whose extraction engine returns HTML with no style blocks, so the
extracted critical CSS is empty. -/
def sampleWorldSoft : World :=
  { fetch := fun _ =>
      .response 200 ("OK".toList) ("<html><head></head><body></body></html>".toList)
    beastiesProcess := fun _ => []
    manifest := some fun k => if k = "src/js/app.ts".toList then some ["app.css".toList] else none
    assetsDir := none }

def sampleCssInfo : CssInfo := ⟨"/proj/web/dist/app.css".toList, "/dist/app.css".toList⟩

/-- Engine output containing a marked (`data-href`) style block. -/
def sampleMarkedOut : Str :=
  "<style data-href=\"/dist/app.css\">h1\x7bcolor:blue\x7d</style>".toList

/-- Engine output with no marked block and two genuine style blocks, the
second of which contains the placeholder substring in its CSS text. -/
def sampleProcessedOut : Str :=
  "<style>good\x7bx\x7d</style><style>bad existing-style-placeholder\x7by\x7d</style>".toList

/-! ### Helper lemmas -/

lemma pref_of_isPrefixOfEq {l t : Str} (h : l.isPrefixOf t = true) : l <+: t := by
  exact List.isPrefixOf_iff_prefix.mp h

lemma inf_of_pref {l t : Str} (h : l <+: t) : l <:+: t := by
  obtain ⟨r, hr⟩ := h
  exact ⟨[], r, by simpa using hr⟩

lemma inf_cons {l t : Str} (c : Char) (h : l <:+: t) : l <:+: c :: t := by
  obtain ⟨s, u, rfl⟩ := h
  exact ⟨c :: s, u, rfl⟩

lemma take_pref (n : Nat) (l : Str) : l.take n <+: l :=
  ⟨l.drop n, List.take_append_drop n l⟩

lemma isPrefixOf_self_append (l r : Str) : l.isPrefixOf (l ++ r) = true := by
  induction l with
  | nil => simp [List.isPrefixOf]
  | cons c cs ih => simp [List.isPrefixOf, ih]

lemma length_filter_split (l : List PageResult) :
    (l.filter fun r => r.success).length + (l.filter fun r => !r.success).length = l.length := by
  induction l with
  | nil => rfl
  | cons a t ih =>
    cases ha : a.success <;> simp [List.filter_cons, ha] <;> omega

lemma processPage_page (cfg : Config) (w : World) (ci : CssInfo) (p : Page) :
    (processPage cfg w ci p).1.page = p := by
  unfold processPage
  cases hf : fetchHtml w (pageUrl cfg p) with
  | error msg => rfl
  | ok html =>
    by_cases hc :
        trimStr (extractCriticalCss (w.beastiesProcess (sanitizeHtml ci.href html))) = [] <;>
      simp [hc]

lemma generate_ok_inv (cfg : Config) (w : World) (s : RunSummary)
    (h : (generateCriticalCss cfg w).1 = .ok s) :
    ∃ ci, getBuiltCssInfo cfg w = .ok ci ∧
      s.results = cfg.pages.map (fun p => (processPage cfg w ci p).1) ∧
      s.successful = (s.results.filter fun r => r.success).length ∧
      s.failed = (s.results.filter fun r => !r.success).length := by
  unfold generateCriticalCss at h
  cases hg : getBuiltCssInfo cfg w with
  | error e => rw [hg] at h; simp at h
  | ok ci =>
    rw [hg] at h
    simp only [Except.ok.injEq] at h
    subst h
    exact ⟨ci, rfl, rfl, rfl, rfl⟩

/-- JS `replace` with a string pattern leaves the string unchanged when the
pattern does not occur. -/
lemma replaceFirst_no_occ (pat repl s : Str) (h : ¬ pat <:+: s) :
    replaceFirstStr pat repl s = s := by
  induction s with
  | nil =>
    cases pat with
    | nil => exact absurd ⟨[], [], rfl⟩ h
    | cons p ps => rfl
  | cons c cs ih =>
    have hp : pat.isPrefixOf (c :: cs) = false := by
      rw [Bool.eq_false_iff]
      intro hcontra
      exact h (inf_of_pref (pref_of_isPrefixOfEq hcontra))
    have hrec : ¬ pat <:+: cs := fun hcs => h (inf_cons c hcs)
    simp [replaceFirstStr, hp, ih hrec]

/-- JS `replace` with a string pattern rewrites the first occurrence: if `s`
splits as `a ++ pat ++ b` and no occurrence of `pat` starts inside `a`, the
result is `a ++ repl ++ b`. -/
lemma replaceFirst_first_occ (pat repl : Str) (hne : pat ≠ []) :
    ∀ a b : Str, ¬ pat <:+: (a ++ pat.take (pat.length - 1)) →
      replaceFirstStr pat repl (a ++ pat ++ b) = a ++ repl ++ b := by
  intro a
  induction a with
  | nil =>
    intro b _
    cases pat with
    | nil => exact absurd rfl hne
    | cons p ps =>
      show replaceFirstStr (p :: ps) repl ((p :: ps) ++ b) = repl ++ b
      have hpre : (p :: ps).isPrefixOf ((p :: ps) ++ b) = true := isPrefixOf_self_append _ _
      cases b with
      | nil => simp [replaceFirstStr, hpre, List.drop_left]
      | cons x xs => simp [replaceFirstStr, hpre, List.drop_left]
  | cons c a' ih =>
    intro b h
    have hnp : ¬ pat <+: c :: (a' ++ (pat ++ b)) := by
      intro hcontra
      have h1 : pat <+: (c :: a') ++ pat ++ b := by simpa using hcontra
      have h2 : (c :: a') ++ pat.take (pat.length - 1) <+: (c :: a') ++ pat ++ b := by
        obtain ⟨r, hr⟩ := take_pref (pat.length - 1) pat
        refine ⟨r ++ b, ?_⟩
        calc ((c :: a') ++ pat.take (pat.length - 1)) ++ (r ++ b)
            = (c :: a') ++ ((pat.take (pat.length - 1) ++ r) ++ b) := by simp
          _ = (c :: a') ++ (pat ++ b) := by rw [hr]
          _ = (c :: a') ++ pat ++ b := by simp
      have hlen : pat.length ≤ ((c :: a') ++ pat.take (pat.length - 1)).length := by
        have hploss : 1 ≤ pat.length := by
          cases pat with
          | nil => exact absurd rfl hne
          | cons x xs => simp
        simp [List.length_append, List.length_take]
        omega
      exact h (inf_of_pref (List.prefix_of_prefix_length_le h1 h2 hlen))
    have hrec : ¬ pat <:+: (a' ++ pat.take (pat.length - 1)) := by
      intro hcs
      exact h (inf_cons c hcs)
    show replaceFirstStr pat repl (c :: (a' ++ pat ++ b)) = c :: (a' ++ repl ++ b)
    have hih := ih b hrec
    simp only [List.append_assoc] at hih
    simp [replaceFirstStr, hnp, hih]

/-! ### Claim theorems -/

/-- C1: for every configured pages list (any length `N ≥ 0`), a `RunSummary`
returned by the pipeline satisfies `successful + failed = results.length`,
with `successful` the number of results whose `success` is `true` and
`failed` the number whose `success` is `false`, so each result is counted in
exactly one partition. -/
theorem run_summary_partition (cfg : Config) (w : World) (s : RunSummary)
    (h : (generateCriticalCss cfg w).1 = .ok s) :
    s.successful + s.failed = s.results.length ∧
    s.successful = (s.results.filter fun r => r.success).length ∧
    s.failed = (s.results.filter fun r => !r.success).length := by
  obtain ⟨ci, hg, hres, hsucc, hfail⟩ := generate_ok_inv cfg w s h
  exact ⟨by rw [hsucc, hfail]; exact length_filter_split s.results, hsucc, hfail⟩

theorem run_summary_partition_witness :
    sampleSummary.successful + sampleSummary.failed = sampleSummary.results.length ∧
    sampleSummary.successful = (sampleSummary.results.filter fun r => r.success).length ∧
    sampleSummary.failed = (sampleSummary.results.filter fun r => !r.success).length :=
  run_summary_partition sampleConfig sampleWorld sampleSummary (by rfl)

/-- C2: a returned `RunSummary` has exactly one `PageResult` per input page,
in the same order as the input pages list (result `i` carries input page `i`,
and the lengths agree), for every pages list of any length `N ≥ 0`. -/
theorem run_results_order (cfg : Config) (w : World) (s : RunSummary)
    (h : (generateCriticalCss cfg w).1 = .ok s) :
    s.results.map (fun r => r.page) = cfg.pages ∧
    s.results.length = cfg.pages.length := by
  obtain ⟨ci, hg, hres, _, _⟩ := generate_ok_inv cfg w s h
  constructor
  · rw [hres, List.map_map]
    have : ∀ p ∈ cfg.pages, ((fun r => r.page) ∘ fun p => (processPage cfg w ci p).1) p = p := by
      intro p _
      exact processPage_page cfg w ci p
    rw [List.map_congr_left this]
    simp
  · rw [hres, List.length_map]

theorem run_results_order_witness :
    sampleSummary.results.map (fun r => r.page) = sampleConfig.pages ∧
    sampleSummary.results.length = sampleConfig.pages.length :=
  run_results_order sampleConfig sampleWorld sampleSummary (by rfl)

/-- C3: the asset locator equals the reference definition written from the
specification: a parsed manifest whose configured entry has a non-empty css
list yields `projectRoot/web/dist/<first css>` with href `/dist/<first css>`;
on any failure in that step it instead takes the first `.css` file of the
`projectRoot/web/dist/assets` listing and returns the analogous path and href
for `assets/<file>` rather than raising. -/
theorem asset_locator_matches_reference (cfg : Config) (w : World) :
    getBuiltCssInfo cfg w = assetLocatorRef cfg w := by
  have hpath : ∀ f : Str,
      joinPath ("web/dist".toList) ("assets/".toList ++ f) =
        joinPath ("web/dist/assets".toList) f := by
    intro f
    show ("web/dist".toList : Str) ++ '/' :: ("assets/".toList ++ f) =
      "web/dist/assets".toList ++ '/' :: f
    have hlit : ("web/dist".toList : Str) ++ '/' :: "assets/".toList =
        "web/dist/assets".toList ++ ['/'] := by decide
    calc ("web/dist".toList : Str) ++ '/' :: ("assets/".toList ++ f)
        = (("web/dist".toList : Str) ++ '/' :: "assets/".toList) ++ f := by simp
      _ = ("web/dist/assets".toList ++ ['/'] : Str) ++ f := by rw [hlit]
      _ = "web/dist/assets".toList ++ '/' :: f := by simp
  have hhref : ∀ f : Str,
      ("/dist/".toList : Str) ++ ("assets/".toList ++ f) = "/dist/assets/".toList ++ f := by
    intro f
    have hlit : ("/dist/".toList : Str) ++ "assets/".toList = "/dist/assets/".toList := by decide
    rw [← List.append_assoc, hlit]
  have hfb : fallbackCss? w = none → assetLocatorRefFallback cfg w = .error noCssError := by
    intro hn
    unfold fallbackCss? at hn
    unfold assetLocatorRefFallback
    cases ha : w.assetsDir with
    | none => rfl
    | some files =>
      rw [ha] at hn
      dsimp only at hn ⊢
      cases hfil : files.filter (fun f => List.isSuffixOf (".css".toList) f) with
      | nil => rfl
      | cons f fs => rw [hfil] at hn; exact absurd hn (by simp)
  have hfb2 : ∀ f, fallbackCss? w = some f →
      assetLocatorRefFallback cfg w =
        .ok ⟨joinPath cfg.projectRoot (joinPath ("web/dist/assets".toList) f),
             "/dist/assets/".toList ++ f⟩ := by
    intro f hn
    unfold fallbackCss? at hn
    unfold assetLocatorRefFallback
    cases ha : w.assetsDir with
    | none => rw [ha] at hn; exact absurd hn (by simp)
    | some files =>
      rw [ha] at hn
      dsimp only at hn ⊢
      cases hfil : files.filter (fun g => List.isSuffixOf (".css".toList) g) with
      | nil => rw [hfil] at hn; exact absurd hn (by simp)
      | cons g gs =>
        rw [hfil] at hn
        simp only [Option.some.injEq] at hn
        rw [hn]
  have hrefsplit : ∀ x, manifestCss? cfg w = x →
      assetLocatorRef cfg w =
        (match x with
         | some cssFile =>
           .ok ⟨joinPath cfg.projectRoot (joinPath ("web/dist".toList) cssFile),
                "/dist/".toList ++ cssFile⟩
         | none => assetLocatorRefFallback cfg w) := by
    intro x hx
    unfold manifestCss? at hx
    unfold assetLocatorRef
    cases hm : w.manifest with
    | none =>
      rw [hm] at hx
      subst hx
      rfl
    | some lookup =>
      rw [hm] at hx
      dsimp only at hx ⊢
      cases hl : lookup cfg.appEntry with
      | none => rw [hl] at hx; subst hx; rfl
      | some css =>
        rw [hl] at hx
        cases css with
        | nil => subst hx; rfl
        | cons cssFile restCss => subst hx; rfl
  unfold getBuiltCssInfo
  cases hx : manifestCss? cfg w with
  | some cssFile => rw [hrefsplit _ hx]
  | none =>
    rw [hrefsplit _ hx]
    dsimp only
    cases hf : fallbackCss? w with
    | none => rw [hfb hf]
    | some f =>
      rw [hfb2 f hf]
      dsimp only
      rw [hpath f, hhref f]

/-- C4: when neither the manifest yields a usable CSS entry nor the fallback
directory contains any `.css` file, the pipeline raises the "no CSS found"
error before processing any page: the event trace is empty (no page is
fetched, nothing is written) and the error propagates to the caller rather
than being recorded in any `PageResult`. -/
theorem no_css_fatal (cfg : Config) (w : World)
    (hm : manifestCss? cfg w = none) (hf : fallbackCss? w = none) :
    generateCriticalCss cfg w = (.error noCssError, []) := by
  have hg : getBuiltCssInfo cfg w = .error noCssError := by
    unfold getBuiltCssInfo
    rw [hm, hf]
  unfold generateCriticalCss
  rw [hg]

theorem no_css_fatal_witness :
    generateCriticalCss sampleConfig sampleWorldNoCss = (.error noCssError, []) :=
  no_css_fatal sampleConfig sampleWorldNoCss (by rfl) (by rfl)

/-- C5: a page whose fetch returns a non-2xx response gets the error message
carrying the requested URL, the numeric status code and the status text,
recorded at the page boundary as `PageResult {success := false, error :=
message}`; the run is not aborted — the results list still has one entry per
configured page. -/
theorem fetch_failure_page_local (cfg : Config) (w : World) (i : Nat) (p : Page)
    (st : Nat) (stx bodyStr : Str) (s : RunSummary)
    (hp : cfg.pages[i]? = some p)
    (hf : w.fetch (pageUrl cfg p) = .response st stx bodyStr)
    (hst : ¬ (200 ≤ st ∧ st ≤ 299))
    (hs : (generateCriticalCss cfg w).1 = .ok s) :
    s.results[i]? = some ⟨p, false, none, some (fetchFailMsg (pageUrl cfg p) st stx)⟩ ∧
    s.results.length = cfg.pages.length := by
  obtain ⟨ci, hg, hres, _, _⟩ := generate_ok_inv cfg w s hs
  have hfetch : fetchHtml w (pageUrl cfg p) = .error (fetchFailMsg (pageUrl cfg p) st stx) := by
    unfold fetchHtml
    rw [hf]
    dsimp only
    rw [if_neg hst]
  constructor
  · rw [hres, List.getElem?_map, hp]
    dsimp only [Option.map]
    have : processPage cfg w ci p =
        (⟨p, false, none, some (fetchFailMsg (pageUrl cfg p) st stx)⟩,
         [Event.fetched (pageUrl cfg p)]) := by
      unfold processPage
      rw [hfetch]
    rw [this]
  · rw [hres, List.length_map]

theorem fetch_failure_page_local_witness :
    sampleSummary.results[1]? =
      some ⟨samplePage2, false, none,
            some (fetchFailMsg (pageUrl sampleConfig samplePage2) 404 ("Not Found".toList))⟩ ∧
    sampleSummary.results.length = sampleConfig.pages.length :=
  fetch_failure_page_local sampleConfig sampleWorld 1 samplePage2 404
    ("Not Found".toList) [] sampleSummary (by rfl) (by rfl) (by decide) (by rfl)

/-- C6: the sanitizer applies the three textual transforms in order — replace
every `<style>...</style>` block (case-insensitive, non-greedy across
newlines) with the fixed placeholder comment, remove every `<link>` tag whose
`rel` attribute is `stylesheet` (case-insensitive), insert one new link tag
`<link rel="stylesheet" href="{href}">` before `</head>` — and on the
particular HTML containing `<style>a{color:red}</style>` and
`<link rel="stylesheet" href="x.css">`, both are removed and exactly one new
stylesheet link appears before `</head>`. -/
theorem sanitizer_transforms :
    (∀ href html : Str, sanitizeHtml href html =
      replaceFirstStr headClose (linkTag href ++ "\n".toList ++ headClose)
        (removeLinks (replaceStyles html))) ∧
    sanitizeHtml ("/dist/assets/app.css".toList)
        ("<html><head><style>a\x7bcolor:red\x7d</style><link rel=\"stylesheet\" href=\"x.css\"></head><body></body></html>".toList) =
      ("<html><head><!-- existing-style-placeholder --><link rel=\"stylesheet\" href=\"/dist/assets/app.css\">\n</head><body></body></html>".toList) :=
  ⟨fun _ _ => rfl, by decide⟩

/-- C7: output parsing recovers the critical CSS exactly as the code does —
the capture of the first marker (`data-href`) style block when one exists,
otherwise the concatenated captures of all style blocks not carrying the
sanitized-placeholder marker; if the trimmed result is empty the page is
recorded as `success := false` with error `"No critical CSS extracted"` and
nothing is written, otherwise the trimmed CSS is written and recorded. -/
theorem output_extraction_and_soft_failure :
    (∀ out b, findDataHrefStyle out = some b → extractCriticalCss out = b) ∧
    (∀ out, findDataHrefStyle out = none →
      extractCriticalCss out =
        (((matchAllStyles out).filter fun m => !containsSub placeholderText m.full).map
          StyleMatch.body).flatten) ∧
    (∀ cfg w ci p html, fetchHtml w (pageUrl cfg p) = .ok html →
      trimStr (extractCriticalCss (w.beastiesProcess (sanitizeHtml ci.href html))) = [] →
      processPage cfg w ci p =
        (⟨p, false, none, some ("No critical CSS extracted".toList)⟩,
         [Event.fetched (pageUrl cfg p)])) ∧
    (∀ cfg w ci p html, fetchHtml w (pageUrl cfg p) = .ok html →
      trimStr (extractCriticalCss (w.beastiesProcess (sanitizeHtml ci.href html))) ≠ [] →
      processPage cfg w ci p =
        (⟨p, true, some (sizeKbStr (trimStr (extractCriticalCss
            (w.beastiesProcess (sanitizeHtml ci.href html))))), none⟩,
         [Event.fetched (pageUrl cfg p),
          Event.wroteFile (outputPath cfg p)
            (trimStr (extractCriticalCss (w.beastiesProcess (sanitizeHtml ci.href html))))])) := by
  refine ⟨?_, ?_, ?_, ?_⟩
  · intro out b h
    unfold extractCriticalCss
    rw [h]
  · intro out h
    unfold extractCriticalCss
    rw [h]
  · intro cfg w ci p html hf hc
    unfold processPage
    rw [hf]
    dsimp only
    rw [if_pos hc]
  · intro cfg w ci p html hf hc
    unfold processPage
    rw [hf]
    dsimp only
    rw [if_neg hc]

theorem output_extraction_and_soft_failure_witness :
    extractCriticalCss sampleMarkedOut = "h1\x7bcolor:blue\x7d".toList ∧
    processPage sampleConfig sampleWorldSoft sampleCssInfo samplePage1 =
      (⟨samplePage1, false, none, some ("No critical CSS extracted".toList)⟩,
       [Event.fetched (pageUrl sampleConfig samplePage1)]) :=
  ⟨output_extraction_and_soft_failure.1 sampleMarkedOut ("h1\x7bcolor:blue\x7d".toList) (by rfl),
   output_extraction_and_soft_failure.2.2.1 sampleConfig sampleWorldSoft sampleCssInfo
     samplePage1 ("<html><head></head><body></body></html>".toList) (by rfl) (by rfl)⟩

/-- C8: the pipeline is a pure function of the resolved configuration and the
external responses: two runs over worlds whose fetch responses, extraction
engine, manifest and assets listing coincide produce identical results —
including the event trace, hence byte-identical written files — and
identical `RunSummary` values. -/
theorem pipeline_deterministic (cfg : Config) (w₁ w₂ : World)
    (hf : w₁.fetch = w₂.fetch) (hb : w₁.beastiesProcess = w₂.beastiesProcess)
    (hm : w₁.manifest = w₂.manifest) (ha : w₁.assetsDir = w₂.assetsDir) :
    generateCriticalCss cfg w₁ = generateCriticalCss cfg w₂ := by
  cases w₁ with
  | mk f1 b1 m1 a1 =>
    cases w₂ with
    | mk f2 b2 m2 a2 =>
      obtain rfl : f1 = f2 := hf
      obtain rfl : b1 = b2 := hb
      obtain rfl : m1 = m2 := hm
      obtain rfl : a1 = a2 := ha
      rfl

theorem pipeline_deterministic_witness :
    generateCriticalCss sampleConfig sampleWorld = generateCriticalCss sampleConfig sampleWorld :=
  pipeline_deterministic sampleConfig sampleWorld sampleWorld rfl rfl rfl rfl

/-- C9 fails as stated: this fetched HTML contains no occurrence of the
substring `</head>`, yet sanitization does inject a stylesheet link — the
stylesheet-link removal deletes the `<link>` tag standing between `</he` and
`ad>`, creating a fresh `</head>` that the injection step then targets.  The
output is the injected link tag followed by `</head>`, not the input after
the first two transforms. -/
theorem head_injection_counterexample :
    containsSub headClose ("</he<link rel=\"stylesheet\">ad>".toList) = false ∧
    sanitizeHtml ("/h".toList) ("</he<link rel=\"stylesheet\">ad>".toList) ≠
      removeLinks (replaceStyles ("</he<link rel=\"stylesheet\">ad>".toList)) ∧
    sanitizeHtml ("/h".toList) ("</he<link rel=\"stylesheet\">ad>".toList) =
      linkTag ("/h".toList) ++ "\n".toList ++ headClose :=
  ⟨by decide, by decide, by decide⟩

/-- C9 (amended): the occurrence condition holds of the HTML *after*
style-block replacement and stylesheet-link removal — the string the
`replace('</head>', ...)` call operates on.  If that string contains no
occurrence of `</head>`, no link is injected (the output is exactly that
string) and no error is raised; when occurrences exist, the single new link
(followed by a newline) is inserted before the first occurrence only. -/
theorem head_injection_amended (href html : Str) :
    (¬ headClose <:+: removeLinks (replaceStyles html) →
      sanitizeHtml href html = removeLinks (replaceStyles html)) ∧
    (∀ a b : Str, removeLinks (replaceStyles html) = a ++ headClose ++ b →
      ¬ headClose <:+: (a ++ headClose.take (headClose.length - 1)) →
      sanitizeHtml href html = a ++ (linkTag href ++ "\n".toList ++ headClose) ++ b) := by
  constructor
  · intro h
    unfold sanitizeHtml
    exact replaceFirst_no_occ _ _ _ h
  · intro a b hsplit hfirst
    unfold sanitizeHtml
    rw [hsplit]
    exact replaceFirst_first_occ headClose _ (by decide) a b hfirst

theorem head_injection_amended_witness :
    sanitizeHtml ("/dist/app.css".toList) ("<p>hi</p>".toList) =
      removeLinks (replaceStyles ("<p>hi</p>".toList)) ∧
    sanitizeHtml ("/dist/app.css".toList) ("<head></head></head>".toList) =
      "<head>".toList ++
        (linkTag ("/dist/app.css".toList) ++ "\n".toList ++ headClose) ++ "</head>".toList :=
  ⟨(head_injection_amended ("/dist/app.css".toList) ("<p>hi</p>".toList)).1 (by decide),
   (head_injection_amended ("/dist/app.css".toList) ("<head></head></head>".toList)).2
     ("<head>".toList) ("</head>".toList) (by decide) (by decide)⟩

/-- C10: in the fallback output-parsing path a style block is excluded from
the concatenation exactly when its full matched text contains the substring
`existing-style-placeholder` anywhere; consequently a genuinely new style
block whose CSS text happens to contain that substring is silently dropped:
`sampleProcessedOut` has two genuine style blocks, and only the first
survives extraction. -/
theorem fallback_exclusion_by_substring :
    (∀ out, findDataHrefStyle out = none →
      extractCriticalCss out =
        (((matchAllStyles out).filter fun m => !containsSub placeholderText m.full).map
          StyleMatch.body).flatten) ∧
    (matchAllStyles sampleProcessedOut).map StyleMatch.body =
      ["good\x7bx\x7d".toList, "bad existing-style-placeholder\x7by\x7d".toList] ∧
    extractCriticalCss sampleProcessedOut = "good\x7bx\x7d".toList := by
  refine ⟨?_, by decide, by decide⟩
  intro out h
  unfold extractCriticalCss
  rw [h]

theorem fallback_exclusion_by_substring_witness :
    extractCriticalCss sampleProcessedOut =
      (((matchAllStyles sampleProcessedOut).filter
          fun m => !containsSub placeholderText m.full).map StyleMatch.body).flatten :=
  fallback_exclusion_by_substring.1 sampleProcessedOut (by rfl)

end CriticalCss
